import Mathlib

/-!
Verification of the portfolio-tracker core: the JIRA merge-sync
reconciliation algorithm (js/modules/jira-sync.js), the risk-detection
state transition logic (js/modules/risk-detector.js) and the dashboard
view filter (js/modules/state.js), shallowly embedded in Lean.

Dates that the risk detector compares are modelled as integer millisecond
timestamps (the value of a JS Date). String-typed record fields keep JS
truthiness where the source relies on it: the empty string is the falsy
string, and a JS array is always truthy (even when empty), so
`existingData.tags \x7c\x7c []` is `existingData.tags` whenever the field holds
an array, which our record type guarantees.
-/

namespace PortfolioTracker

/-- A phase of an initiative: `{name, startDate, endDate, status}`.
`endDate` and `startDate` are millisecond timestamps; `status` is the
string "completed" or any other value meaning open. -/
structure Phase where
  name : String
  startDate : Int
  endDate : Int
  status : String
deriving DecidableEq, Repr

/-- Entry of the overdue list built by detectRisks (risk-detector.js lines
41-45): phase name, its end date, and the computed day count. -/
structure OverdueEntry where
  name : String
  endDate : Int
  daysOverdue : Int
deriving DecidableEq, Repr

/-- Entry of the approaching list built by detectRisks (risk-detector.js
lines 52-56): phase name, its end date, and days until the deadline. -/
structure ApproachingEntry where
  name : String
  endDate : Int
  daysUntil : Int
deriving DecidableEq, Repr

/-- The transient `_riskInfo` marker stored on an initiative by
detectRisks (risk-detector.js lines 69-74). -/
structure RiskInfo where
  hasOverduePhase : Bool
  hasApproachingDeadline : Bool
  overduePhases : List OverdueEntry
  approachingPhases : List ApproachingEntry
deriving DecidableEq, Repr

/-- The central record. Field names follow the source
(mapJiraIssueToInitiative builds exactly the first ten fields;
`created_at` is set by the database layer; `riskInfo` and `autoRisk`
model the transient `_riskInfo` and `_autoRisk` markers, with
`riskInfo = none` for an absent `_riskInfo` and `autoRisk = false` for an
absent `_autoRisk`). -/
structure Initiative where
  id : String
  name : String
  owner : String
  keyInitiative : String
  status : String
  startDate : String
  targetDate : String
  categories : List String
  tags : List String
  phases : List Phase
  created_at : String
  riskInfo : Option RiskInfo
  autoRisk : Bool
deriving DecidableEq, Repr

/-! ## jira-sync.js: mergeInitiativeData (lines 237-262) -/

/-- One step of JS `new Set(...)` construction: insert an element at the
end unless already present (JS sets keep first-occurrence insertion
order). -/
def insertNew (acc : List String) (x : String) : List String :=
  if x ∈ acc then acc else acc ++ [x]

/-- `[...new Set(l)]`: deduplicate a list keeping the first occurrence of
each element, in order. -/
def jsSetDedup (l : List String) : List String :=
  l.foldl insertNew []

/-- JS `a \x7c\x7c b` on strings: the empty string is falsy (so are null and
undefined, which we collapse into the empty string). -/
def jsOrStr (a b : String) : String :=
  if a = "" then b else a

/-- Embedding of mergeInitiativeData (jira-sync.js lines 237-262).
With no existing record the JIRA data is returned as-is; otherwise the
result spreads `jiraData` (so id, name, owner, status, keyInitiative come
from JIRA), keeps existing dates when non-empty, unions the categories
through a JS Set seeded with the existing ones first, and preserves the
existing tags, phases and created_at (`existingData.tags \x7c\x7c []` is
`existingData.tags` because an array is truthy even when empty, and our
record type always holds an array there; same for phases). -/
def mergeInitiativeData (jiraData : Initiative) (existingData : Option Initiative) :
    Initiative :=
  match existingData with
  | none => jiraData
  | some existing =>
    let mergedCategories := jsSetDedup (existing.categories ++ jiraData.categories)
    { jiraData with
      startDate := jsOrStr existing.startDate jiraData.startDate
      targetDate := jsOrStr existing.targetDate jiraData.targetDate
      categories := mergedCategories
      tags := existing.tags
      phases := existing.phases
      created_at := existing.created_at }

/-! ## risk-detector.js: detectRisks (lines 19-90) -/

/-- `APPROACHING_DEADLINE_DAYS` (risk-detector.js line 11). -/
def APPROACHING_DEADLINE_DAYS : Int := 5

/-- Milliseconds in a day, the `24 * 60 * 60 * 1000` factor of the source. -/
def msPerDay : Int := 24 * 60 * 60 * 1000

/-- `Math.ceil(a / b)` for a nonnegative numerator and positive divisor,
the only shape the source evaluates (day counts of overdue and
approaching phases). -/
def jsCeilDiv (a b : Int) : Int := (a + b - 1) / b

/-- The overdue test of risk-detector.js line 38:
`endDate < now && phase.status !== 'completed'`. -/
def isOverdue (now : Int) (p : Phase) : Bool :=
  decide (p.endDate < now) && (p.status != "completed")

/-- The approaching test of risk-detector.js line 49:
`endDate >= now && endDate <= approachingDeadline && status !== 'completed'`
where `approachingDeadline = now + APPROACHING_DEADLINE_DAYS days`. -/
def isApproaching (now : Int) (p : Phase) : Bool :=
  decide (now ≤ p.endDate) &&
  decide (p.endDate ≤ now + APPROACHING_DEADLINE_DAYS * msPerDay) &&
  (p.status != "completed")

/-- The `overduePhases` list accumulated by the phase loop
(risk-detector.js lines 40-45), in phase order. -/
def overdueEntries (now : Int) (phases : List Phase) : List OverdueEntry :=
  (phases.filter (isOverdue now)).map fun p =>
    { name := p.name, endDate := p.endDate
      daysOverdue := jsCeilDiv (now - p.endDate) msPerDay }

/-- The `approachingPhases` list accumulated by the phase loop
(risk-detector.js lines 51-56), in phase order. -/
def approachingEntries (now : Int) (phases : List Phase) : List ApproachingEntry :=
  (phases.filter (isApproaching now)).map fun p =>
    { name := p.name, endDate := p.endDate
      daysUntil := jsCeilDiv (p.endDate - now) msPerDay }

/-- A warning pushed by detectRisks (risk-detector.js lines 76-80); its
`initiative` is the record after the mutations of that pass. -/
structure Warning where
  initiative : Initiative
  overduePhases : List OverdueEntry
  approachingPhases : List ApproachingEntry
deriving DecidableEq, Repr

/-- The result of one detectRisks pass: the (elementwise updated)
collection plus `{autoUpdatedCount, warnings}`. -/
structure DetectResult where
  initiatives : List Initiative
  autoUpdatedCount : Nat
  warnings : List Warning
deriving Repr

/-- The body of the per-initiative forEach of detectRisks
(risk-detector.js lines 26-84): returns the updated record, its
contribution to `autoUpdatedCount`, and the warnings it pushes. An
initiative with no phases is skipped entirely (line 27). -/
def processInitiative (now : Int) (initiative : Initiative) :
    Initiative × Nat × List Warning :=
  if initiative.phases.isEmpty then (initiative, 0, [])
  else
    let hasOverduePhase := initiative.phases.any (isOverdue now)
    let hasApproachingDeadline := initiative.phases.any (isApproaching now)
    let overduePhases := overdueEntries now initiative.phases
    let approachingPhases := approachingEntries now initiative.phases
    let auto := hasOverduePhase && (initiative.status != "Risk") &&
      (initiative.status != "Completed")
    let afterStatus : Initiative :=
      if auto then { initiative with status := "Risk", autoRisk := true }
      else initiative
    let info : RiskInfo :=
      { hasOverduePhase := hasOverduePhase
        hasApproachingDeadline := hasApproachingDeadline
        overduePhases := overduePhases
        approachingPhases := approachingPhases }
    let result : Initiative :=
      if hasOverduePhase || hasApproachingDeadline then
        { afterStatus with riskInfo := some info }
      else { afterStatus with riskInfo := none }
    let warning : Warning :=
      { initiative := result, overduePhases := overduePhases
        approachingPhases := approachingPhases }
    (result, if auto then 1 else 0,
     if hasOverduePhase || hasApproachingDeadline then [warning] else [])

/-- Embedding of detectRisks (risk-detector.js lines 19-90): one
complete pass over the collection, with `autoUpdatedCount` the sum of
the per-record increments and `warnings` the pushes in order. -/
def detectRisks (now : Int) (initiatives : List Initiative) : DetectResult :=
  { initiatives := initiatives.map fun i => (processInitiative now i).1
    autoUpdatedCount := (initiatives.map fun i => (processInitiative now i).2.1).sum
    warnings := (initiatives.map fun i => (processInitiative now i).2.2).flatten }

/-- The auto-flip condition of risk-detector.js line 61, read off the
input record: some phase is overdue and the status is neither Risk nor
Completed. (A record with no phases has no overdue phase, matching the
skip at line 27.) -/
def shouldFlip (now : Int) (i : Initiative) : Bool :=
  i.phases.any (isOverdue now) && (i.status != "Risk") && (i.status != "Completed")

/-! ## state.js: getFilteredInitiatives (lines 188-213) -/

/-- The filter state of appState (state.js lines 15-19). -/
structure Filters where
  status : String
  category : String
  search : String
deriving DecidableEq, Repr

/-- Character-list matching of a leading segment: true when the second
list is an initial segment of the first. -/
def leadMatch : List Char → List Char → Bool
  | _, [] => true
  | [], _ :: _ => false
  | a :: as, b :: bs => (a == b) && leadMatch as bs

/-- Character-list substring containment. -/
def subMatch : List Char → List Char → Bool
  | [], sub => sub.isEmpty
  | a :: as, sub => leadMatch (a :: as) sub || subMatch as sub

/-- JS `s.includes(sub)`: substring containment. -/
def strIncludes (s sub : String) : Bool :=
  subMatch s.data sub.data

/-- JS `s.toLowerCase()`: per-character lowercasing, defined
structurally over the character list so that concrete instances
evaluate. -/
def jsToLower (s : String) : String :=
  String.mk (s.data.map Char.toLower)

/-- Embedding of getFilteredInitiatives (state.js lines 188-213): the
status filter (exact match unless "all"), then the category filter
(membership unless "all"), then the search filter (case-insensitive
substring of name or owner unless the search string is empty; the
`i.owner &&` guard makes a falsy owner, modelled as the empty string,
fail the owner disjunct). -/
def getFilteredInitiatives (filters : Filters) (initiatives : List Initiative) :
    List Initiative :=
  let filtered := initiatives
  let filtered := if filters.status != "all" then
      filtered.filter fun i => i.status == filters.status
    else filtered
  let filtered := if filters.category != "all" then
      filtered.filter fun i => i.categories.contains filters.category
    else filtered
  if filters.search != "" then
    let search := jsToLower filters.search
    filtered.filter fun i =>
      strIncludes (jsToLower i.name) search ||
      ((i.owner != "") && strIncludes (jsToLower i.owner) search)
  else filtered

/-- Modelled from the spec words of the dashboard-view claim, for
comparison with the source function: "apply status filter (exact match
or all) AND category filter (membership or all)" — and nothing else. -/
def specDashboardFilter (filters : Filters) (initiatives : List Initiative) :
    List Initiative :=
  initiatives.filter fun i =>
    (filters.status == "all" || i.status == filters.status) &&
    (filters.category == "all" || i.categories.contains filters.category)

/-- The predicate getFilteredInitiatives actually implements, elementwise:
status condition AND category condition AND search condition. -/
def fullFilterPred (filters : Filters) (i : Initiative) : Bool :=
  (filters.status == "all" || i.status == filters.status) &&
  (filters.category == "all" || i.categories.contains filters.category) &&
  (filters.search == "" ||
    strIncludes (jsToLower i.name) (jsToLower filters.search) ||
    ((i.owner != "") && strIncludes (jsToLower i.owner) (jsToLower filters.search)))

/-! ## jira-sync.js: the persistence loop of syncFromJira (lines 311-325) -/

/-- The body of one iteration of the save loop (jira-sync.js lines
314-320): fetch the existing record by id, merge, save. `fetchExisting`
and `save` abstract the awaited database calls getInitiativeById and
saveInitiative; an `.error` value models a thrown exception from either. -/
def persistOne (fetchExisting : String → Except String (Option Initiative))
    (save : Initiative → Except String Unit) (jiraItem : Initiative) :
    Except String Unit := do
  let existingItem ← fetchExisting jiraItem.id
  let mergedItem := mergeInitiativeData jiraItem existingItem
  save mergedItem

/-- The persistence loop of syncFromJira (jira-sync.js lines 311-325):
each record is processed inside a try/catch, a success increments
`syncedCount`, a failure only logs, and the loop always continues. The
total return type (a plain Nat, not an Except) reflects that no
exception escapes the loop. -/
def syncPersistLoop (fetchExisting : String → Except String (Option Initiative))
    (save : Initiative → Except String Unit) :
    List Initiative → Nat → Nat
  | [], syncedCount => syncedCount
  | jiraItem :: rest, syncedCount =>
    match persistOne fetchExisting save jiraItem with
    | .ok _ => syncPersistLoop fetchExisting save rest (syncedCount + 1)
    | .error _ => syncPersistLoop fetchExisting save rest syncedCount

/-- Success test for one persistence round trip. -/
def persistSucceeds (fetchExisting : String → Except String (Option Initiative))
    (save : Initiative → Except String Unit) (jiraItem : Initiative) : Bool :=
  match persistOne fetchExisting save jiraItem with
  | .ok _ => true
  | .error _ => false

/-! ## Auxiliary definitions for the proofs, and concrete sample data -/

/-- The elements a fold of `insertNew` over `l` appends after `acc`: the
first occurrences of the elements of `l` that are not already in `acc`. -/
def newPart (acc : List String) : List String → List String
  | [] => []
  | x :: xs => if x ∈ acc then newPart acc xs else x :: newPart (acc ++ [x]) xs

/-- A record as delivered by mapJiraIssueToInitiative: empty tags and
phases, externally mapped status. -/
def sampleJira : Initiative :=
  { id := "P-1", name := "A", owner := "X", keyInitiative := "No"
    status := "Active", startDate := "2024-02-10", targetDate := "2024-03-11"
    categories := ["Plat"], tags := [], phases := [], created_at := ""
    riskInfo := none, autoRisk := false }

/-- A stored record whose status was set to Risk (for example by the
risk evaluator), with user-owned tags and phases. -/
def sampleExisting : Initiative :=
  { id := "P-1", name := "Old", owner := "Y", keyInitiative := "Yes"
    status := "Risk", startDate := "2024-01-01", targetDate := "2024-02-01"
    categories := ["Plat", "Custom"], tags := ["urgent"]
    phases := [{ name := "P1", startDate := 0, endDate := 10, status := "open" }]
    created_at := "2023-12-01", riskInfo := none, autoRisk := false }

/-- A phase one day overdue relative to `now = 0`. -/
def samplePhaseOverdue : Phase :=
  { name := "P1", startDate := -172800000, endDate := -86400000, status := "open" }

/-- An Active initiative with one overdue, not-completed phase. -/
def sampleActiveOverdue : Initiative :=
  { sampleJira with status := "Active", phases := [samplePhaseOverdue] }

/-- A phase at exactly `now + 5 days` for `now = 0`, not completed. -/
def samplePhaseBoundary : Phase :=
  { name := "B", startDate := 0, endDate := 5 * msPerDay, status := "open" }

/-- A dashboard filter state with both select filters at "all" but a
non-empty search string. -/
def sampleFilters : Filters :=
  { status := "all", category := "all", search := "z" }

/-- An initiative whose name and owner do not contain the letter z. -/
def sampleSearchMiss : Initiative :=
  { sampleJira with name := "abc", owner := "xy" }

/-! ## Lemmas: jsSetDedup -/

theorem insertNew_of_mem {acc : List String} {x : String} (h : x ∈ acc) :
    insertNew acc x = acc := by
  simp [insertNew, h]

theorem insertNew_of_not_mem {acc : List String} {x : String} (h : x ∉ acc) :
    insertNew acc x = acc ++ [x] := by
  simp [insertNew, h]

theorem foldl_insertNew_eq (l : List String) :
    ∀ acc, l.foldl insertNew acc = acc ++ newPart acc l := by
  induction l with
  | nil => intro acc; simp [newPart]
  | cons x xs ih =>
    intro acc
    by_cases h : x ∈ acc
    · rw [List.foldl_cons, insertNew_of_mem h]
      simp [newPart, h, ih acc]
    · rw [List.foldl_cons, insertNew_of_not_mem h]
      simp [newPart, h, ih (acc ++ [x])]

theorem newPart_not_mem (l : List String) :
    ∀ acc y, y ∈ newPart acc l → y ∉ acc := by
  induction l with
  | nil => intro acc y h; simp [newPart] at h
  | cons x xs ih =>
    intro acc y h
    by_cases hx : x ∈ acc
    · exact ih acc y (by simpa [newPart, hx] using h)
    · have h1 : y = x ∨ y ∈ newPart (acc ++ [x]) xs := by
        simpa [newPart, hx] using h
      rcases h1 with h1 | h1
      · exact h1 ▸ hx
      · intro hy
        exact ih (acc ++ [x]) y h1 (by simp [hy])

theorem newPart_nodup (l : List String) : ∀ acc, (newPart acc l).Nodup := by
  induction l with
  | nil => intro acc; simp [newPart]
  | cons x xs ih =>
    intro acc
    by_cases hx : x ∈ acc
    · simpa [newPart, hx] using ih acc
    · simp only [newPart, hx, if_false, ite_false]
      refine List.nodup_cons.mpr ⟨?_, ih (acc ++ [x])⟩
      intro hmem
      exact newPart_not_mem xs (acc ++ [x]) x hmem (by simp)

theorem mem_foldl_insertNew (l : List String) :
    ∀ acc x, x ∈ l.foldl insertNew acc ↔ x ∈ acc ∨ x ∈ l := by
  induction l with
  | nil => intro acc x; simp
  | cons y ys ih =>
    intro acc x
    by_cases hy : y ∈ acc
    · rw [List.foldl_cons, insertNew_of_mem hy, ih]
      simp only [List.mem_cons]
      constructor
      · rintro (h | h)
        · exact Or.inl h
        · exact Or.inr (Or.inr h)
      · rintro (h | h | h)
        · exact Or.inl h
        · exact Or.inl (h ▸ hy)
        · exact Or.inr h
    · rw [List.foldl_cons, insertNew_of_not_mem hy, ih]
      simp only [List.mem_append, List.mem_singleton, List.mem_cons]
      tauto

theorem foldl_insertNew_of_subset (l : List String) :
    ∀ acc, (∀ x ∈ l, x ∈ acc) → l.foldl insertNew acc = acc := by
  induction l with
  | nil => intro acc _; rfl
  | cons y ys ih =>
    intro acc h
    rw [List.foldl_cons, insertNew_of_mem (h y (by simp))]
    exact ih acc fun x hx => h x (by simp [hx])

theorem foldl_insertNew_fresh (n : List String) :
    ∀ acc, n.Nodup → (∀ x ∈ n, x ∉ acc) → n.foldl insertNew acc = acc ++ n := by
  induction n with
  | nil => intro acc _ _; simp
  | cons y ys ih =>
    intro acc hnd hdisj
    have hy : y ∉ acc := hdisj y (by simp)
    have hdisj2 : ∀ x ∈ ys, x ∉ acc ++ [y] := by
      intro x hx
      simp only [List.mem_append, List.mem_singleton]
      rintro (h | h)
      · exact hdisj x (by simp [hx]) h
      · exact (List.nodup_cons.mp hnd).1 (h ▸ hx)
    rw [List.foldl_cons, insertNew_of_not_mem hy,
      ih (acc ++ [y]) (List.nodup_cons.mp hnd).2 hdisj2]
    simp

theorem jsSetDedup_nodup (l : List String) : (jsSetDedup l).Nodup := by
  unfold jsSetDedup
  rw [foldl_insertNew_eq]
  simpa using newPart_nodup l []

theorem mem_jsSetDedup (l : List String) (x : String) :
    x ∈ jsSetDedup l ↔ x ∈ l := by
  unfold jsSetDedup
  rw [mem_foldl_insertNew]
  simp

theorem jsSetDedup_absorb (a b : List String) :
    jsSetDedup (a ++ jsSetDedup (a ++ b)) = jsSetDedup (a ++ b) := by
  unfold jsSetDedup
  rw [List.foldl_append, List.foldl_append]
  rw [foldl_insertNew_eq b (List.foldl insertNew [] a)]
  rw [List.foldl_append]
  rw [foldl_insertNew_of_subset (List.foldl insertNew [] a)
    (List.foldl insertNew [] a) (fun x hx => hx)]
  rw [foldl_insertNew_fresh (newPart (List.foldl insertNew [] a) b)
    (List.foldl insertNew [] a)
    (newPart_nodup b (List.foldl insertNew [] a))
    (fun x hx => newPart_not_mem b (List.foldl insertNew [] a) x hx)]

theorem jsOrStr_idem (a b : String) : jsOrStr a (jsOrStr a b) = jsOrStr a b := by
  by_cases h : a = "" <;> simp [jsOrStr, h]

/-! ## Claim theorems: Merge Reconciler -/

/-- C1 counterexample: mergeInitiativeData does silently revert the
status away from Risk. For the concrete external record sampleJira
(externally mapped status Active) and the concrete stored record
sampleExisting (status Risk), the merged record has status Active, not
Risk: the spread of the external record overwrites the Risk status. -/
theorem merge_reverts_risk_cex :
    sampleExisting.status = "Risk" ∧
    (mergeInitiativeData sampleJira (some sampleExisting)).status = "Active" ∧
    (mergeInitiativeData sampleJira (some sampleExisting)).status ≠ "Risk" := by
  refine ⟨rfl, rfl, ?_⟩
  decide

/-- C1 (amended): the sync merge always takes `status` from the external
record — the external value overwrites the existing one, so an existing
Risk status survives the merge exactly when the external status itself
is Risk, and is reverted whenever the external status maps elsewhere. -/
theorem merge_status_always_external (e ex : Initiative) :
    (mergeInitiativeData e (some ex)).status = e.status := rfl

/-- C2: for every external record and every present existing record, the
merge returns the existing `tags` and `phases` verbatim — sync never
alters the user-owned tags and phases fields. -/
theorem merge_preserves_tags_and_phases (e ex : Initiative) :
    (mergeInitiativeData e (some ex)).tags = ex.tags ∧
    (mergeInitiativeData e (some ex)).phases = ex.phases :=
  ⟨rfl, rfl⟩

/-- C3: the merge is idempotent — merging the merged record against the
same existing record again (the same external snapshot twice) returns
the merged record unchanged, for both the absent and the present
existing case. -/
theorem merge_idempotent (e : Initiative) (existing : Option Initiative) :
    mergeInitiativeData (mergeInitiativeData e existing) existing =
      mergeInitiativeData e existing := by
  cases existing with
  | none => rfl
  | some ex =>
    simp [mergeInitiativeData, jsOrStr_idem, jsSetDedup_absorb]

/-- C4: the merged categories contain no duplicate entries and their
membership is exactly the mathematical union of the external and the
existing categories (hence a superset of each). -/
theorem merge_categories_union_nodup (e ex : Initiative) :
    ((mergeInitiativeData e (some ex)).categories).Nodup ∧
    ∀ x, x ∈ (mergeInitiativeData e (some ex)).categories ↔
      (x ∈ e.categories ∨ x ∈ ex.categories) := by
  constructor
  · simpa [mergeInitiativeData] using jsSetDedup_nodup (ex.categories ++ e.categories)
  · intro x
    simp only [mergeInitiativeData, mem_jsSetDedup, List.mem_append]
    exact or_comm

/-- C5: with no existing record the reconciler returns the external
record verbatim, no field changed. -/
theorem merge_absent_passthrough (e : Initiative) :
    mergeInitiativeData e none = e := rfl

/-! ## Lemmas: risk detector -/

theorem processInitiative_count (now : Int) (i : Initiative) :
    (processInitiative now i).2.1 = if shouldFlip now i then 1 else 0 := by
  by_cases he : i.phases.isEmpty
  · have hnil : i.phases = [] := by simpa using he
    simp [processInitiative, he, shouldFlip, hnil]
  · simp [processInitiative, he, shouldFlip]

theorem processInitiative_status (now : Int) (i : Initiative) :
    ((processInitiative now i).1).status =
      if shouldFlip now i then "Risk" else i.status := by
  by_cases he : i.phases.isEmpty
  · have hnil : i.phases = [] := by simpa using he
    simp [processInitiative, he, shouldFlip, hnil]
  · simp only [processInitiative, he, Bool.false_eq_true, if_false, shouldFlip]
    split <;> split <;> simp_all

theorem processInitiative_frame (now : Int) (i : Initiative) :
    ((processInitiative now i).1).id = i.id ∧
    ((processInitiative now i).1).name = i.name ∧
    ((processInitiative now i).1).owner = i.owner ∧
    ((processInitiative now i).1).keyInitiative = i.keyInitiative ∧
    ((processInitiative now i).1).startDate = i.startDate ∧
    ((processInitiative now i).1).targetDate = i.targetDate ∧
    ((processInitiative now i).1).categories = i.categories ∧
    ((processInitiative now i).1).tags = i.tags ∧
    ((processInitiative now i).1).phases = i.phases ∧
    ((processInitiative now i).1).created_at = i.created_at := by
  by_cases he : i.phases.isEmpty
  · simp [processInitiative, he]
  · simp only [processInitiative, he, Bool.false_eq_true, if_false]
    split <;> split <;> simp_all

theorem detectRisks_get (now : Int) (l : List Initiative) (k : Nat)
    (hk : k < l.length) (hk2 : k < (detectRisks now l).initiatives.length) :
    (detectRisks now l).initiatives.get ⟨k, hk2⟩ =
      (processInitiative now (l.get ⟨k, hk⟩)).1 := by
  simp [detectRisks]

theorem detectRisks_count (now : Int) (l : List Initiative) :
    (detectRisks now l).autoUpdatedCount = l.countP (shouldFlip now) := by
  induction l with
  | nil => rfl
  | cons i rest ih =>
    simp only [detectRisks] at ih ⊢
    rw [List.map_cons, List.sum_cons, processInitiative_count now i, ih,
      List.countP_cons]
    by_cases hx : shouldFlip now i
    · simp [hx, Nat.add_comm]
    · simp [hx]

/-! ## Claim theorems: Risk Evaluator -/

/-- C6: in one detectRisks pass, every initiative whose status is
neither Risk nor Completed that has an overdue, not-completed phase
comes out with status Risk; an initiative already at Risk keeps status
Risk (never reverted, whatever its phases); and autoUpdatedCount is
exactly the number of initiatives the pass flipped (one increment per
flipped initiative). -/
theorem detectRisks_flip_and_nonrevert (now : Int) (l : List Initiative)
    (k : Nat) (hk : k < l.length)
    (hk2 : k < (detectRisks now l).initiatives.length) :
    (shouldFlip now (l.get ⟨k, hk⟩) = true →
      ((detectRisks now l).initiatives.get ⟨k, hk2⟩).status = "Risk") ∧
    ((l.get ⟨k, hk⟩).status = "Risk" →
      ((detectRisks now l).initiatives.get ⟨k, hk2⟩).status = "Risk") ∧
    (detectRisks now l).autoUpdatedCount = l.countP (shouldFlip now) := by
  refine ⟨?_, ?_, detectRisks_count now l⟩
  · intro h
    rw [detectRisks_get now l k hk hk2, processInitiative_status, h]
    simp
  · intro h
    rw [detectRisks_get now l k hk hk2, processInitiative_status]
    by_cases hf : shouldFlip now (l.get ⟨k, hk⟩) = true
    · rw [if_pos hf]
    · rw [if_neg hf]
      exact h

/-- C6 witness: at now = 0, the Active initiative sampleActiveOverdue
with one overdue open phase is flipped to Risk and counted once. -/
theorem detectRisks_flip_and_nonrevert_witness :
    ((detectRisks 0 [sampleActiveOverdue]).initiatives.get
        ⟨0, by decide⟩).status = "Risk" ∧
    (detectRisks 0 [sampleActiveOverdue]).autoUpdatedCount = 1 := by
  have h := detectRisks_flip_and_nonrevert 0 [sampleActiveOverdue] 0
    (by decide) (by decide)
  refine ⟨h.1 (by decide), ?_⟩
  rw [h.2.2]
  decide

/-- C7: a not-completed phase with endDate exactly now + 5 days is
classified as approaching, one with endDate now + 6 days is not, and a
phase with status completed is never classified overdue or approaching
regardless of its dates. -/
theorem approaching_window_boundary (now : Int) (p : Phase) :
    (p.status ≠ "completed" →
      (p.endDate = now + 5 * msPerDay → isApproaching now p = true) ∧
      (p.endDate = now + 6 * msPerDay → isApproaching now p = false)) ∧
    (p.status = "completed" →
      isOverdue now p = false ∧ isApproaching now p = false) := by
  constructor
  · intro hs
    constructor
    · intro he
      have h1 : now ≤ p.endDate := by
        rw [he]
        simp only [msPerDay]
        omega
      have h2 : p.endDate ≤ now + APPROACHING_DEADLINE_DAYS * msPerDay := by
        rw [he]
        simp only [APPROACHING_DEADLINE_DAYS, msPerDay]
        omega
      simp [isApproaching, h1, h2, hs]
    · intro he
      have h2 : ¬ (p.endDate ≤ now + APPROACHING_DEADLINE_DAYS * msPerDay) := by
        rw [he]
        simp only [APPROACHING_DEADLINE_DAYS, msPerDay]
        omega
      simp [isApproaching, h2]
  · intro hs
    constructor <;> simp [isOverdue, isApproaching, hs]

/-- C7 witness: at now = 0 the open phase samplePhaseBoundary, due at
exactly 5 days, is approaching; the same phase pushed one day later is
not; and marked completed it is neither overdue nor approaching. -/
theorem approaching_window_boundary_witness :
    isApproaching 0 samplePhaseBoundary = true ∧
    isApproaching 0 { samplePhaseBoundary with endDate := 6 * msPerDay } = false ∧
    isApproaching 0 { samplePhaseBoundary with status := "completed" } = false := by
  refine ⟨?_, ?_, ?_⟩
  · exact ((approaching_window_boundary 0 samplePhaseBoundary).1
      (by decide)).1 (by norm_num [samplePhaseBoundary])
  · exact ((approaching_window_boundary 0
      { samplePhaseBoundary with endDate := 6 * msPerDay }).1
      (by decide)).2 (by norm_num)
  · exact ((approaching_window_boundary 0
      { samplePhaseBoundary with status := "completed" }).2 rfl).2

/-- C10: a detectRisks pass leaves every field of every initiative other
than status and the transient markers unchanged: id, name, owner,
keyInitiative, startDate, targetDate, categories, tags, phases and
created_at are identical before and after. -/
theorem detectRisks_frame (now : Int) (l : List Initiative) (k : Nat)
    (hk : k < l.length) (hk2 : k < (detectRisks now l).initiatives.length) :
    ((detectRisks now l).initiatives.get ⟨k, hk2⟩).id = (l.get ⟨k, hk⟩).id ∧
    ((detectRisks now l).initiatives.get ⟨k, hk2⟩).name = (l.get ⟨k, hk⟩).name ∧
    ((detectRisks now l).initiatives.get ⟨k, hk2⟩).owner = (l.get ⟨k, hk⟩).owner ∧
    ((detectRisks now l).initiatives.get ⟨k, hk2⟩).keyInitiative
      = (l.get ⟨k, hk⟩).keyInitiative ∧
    ((detectRisks now l).initiatives.get ⟨k, hk2⟩).startDate
      = (l.get ⟨k, hk⟩).startDate ∧
    ((detectRisks now l).initiatives.get ⟨k, hk2⟩).targetDate
      = (l.get ⟨k, hk⟩).targetDate ∧
    ((detectRisks now l).initiatives.get ⟨k, hk2⟩).categories
      = (l.get ⟨k, hk⟩).categories ∧
    ((detectRisks now l).initiatives.get ⟨k, hk2⟩).tags = (l.get ⟨k, hk⟩).tags ∧
    ((detectRisks now l).initiatives.get ⟨k, hk2⟩).phases = (l.get ⟨k, hk⟩).phases ∧
    ((detectRisks now l).initiatives.get ⟨k, hk2⟩).created_at
      = (l.get ⟨k, hk⟩).created_at := by
  rw [detectRisks_get now l k hk hk2]
  exact processInitiative_frame now (l.get ⟨k, hk⟩)

/-- C10 witness: the pass at now = 0 over the singleton collection
holding sampleActiveOverdue preserves its phases and tags even though it
flips the status. -/
theorem detectRisks_frame_witness :
    ((detectRisks 0 [sampleActiveOverdue]).initiatives.get
        ⟨0, by decide⟩).phases = sampleActiveOverdue.phases ∧
    ((detectRisks 0 [sampleActiveOverdue]).initiatives.get
        ⟨0, by decide⟩).tags = sampleActiveOverdue.tags := by
  have h := detectRisks_frame 0 [sampleActiveOverdue] 0 (by decide) (by decide)
  exact ⟨h.2.2.2.2.2.2.2.2.1, h.2.2.2.2.2.2.2.1⟩

/-! ## Claim theorems: Sync Orchestrator persistence loop -/

theorem syncPersistLoop_acc (fe : String → Except String (Option Initiative))
    (sv : Initiative → Except String Unit) :
    ∀ (mapped : List Initiative) (n : Nat),
      syncPersistLoop fe sv mapped n = n + mapped.countP (persistSucceeds fe sv) := by
  intro mapped
  induction mapped with
  | nil => intro n; simp [syncPersistLoop]
  | cons j rest ih =>
    intro n
    rw [syncPersistLoop]
    cases hp : persistOne fe sv j with
    | ok u =>
      rw [ih (n + 1), List.countP_cons]
      simp [persistSucceeds, hp]
      omega
    | error msg =>
      rw [ih n, List.countP_cons]
      simp [persistSucceeds, hp]

/-- C8: the persistence loop is total (its result type is a plain count,
so no exception from a failed record propagates and no failure aborts
the remaining records), and the synced count it returns is exactly the
number of mapped records whose fetch-merge-save round trip succeeded. -/
theorem syncPersistLoop_counts_successes
    (fe : String → Except String (Option Initiative))
    (sv : Initiative → Except String Unit) (mapped : List Initiative) :
    syncPersistLoop fe sv mapped 0 = mapped.countP (persistSucceeds fe sv) := by
  simpa using syncPersistLoop_acc fe sv mapped 0

/-! ## Lemmas and claim theorems: View Filter -/

theorem ite_filter_eq (c : Bool) (p : Initiative → Bool) (l : List Initiative) :
    (if c = true then l.filter p else l) = l.filter fun i => !c || p i := by
  cases c <;> simp

theorem filter_filter_and (p q : Initiative → Bool) (l : List Initiative) :
    (l.filter p).filter q = l.filter fun i => p i && q i := by
  induction l with
  | nil => rfl
  | cons a as ih =>
    by_cases hp : p a <;> by_cases hq : q a <;> simp [hp, hq, ih]

/-- C9 counterexample: the view filter is not only the status and
category filters. With both select filters at "all" but the search box
holding "z", the initiative sampleSearchMiss (name "abc", owner "xy")
satisfies the status and category conditions of the claim — the
spec-modelled specDashboardFilter keeps it — yet getFilteredInitiatives
drops it, because the function also applies the search filter. -/
theorem dashboard_filter_search_cex :
    getFilteredInitiatives sampleFilters [sampleSearchMiss] = [] ∧
    specDashboardFilter sampleFilters [sampleSearchMiss] = [sampleSearchMiss] := by
  constructor <;> decide

/-- C9 (amended): for every collection and every filter state, the view
filter returns exactly the initiatives whose status matches the status
filter (or the status filter is "all"), whose categories contain the
category filter (or the category filter is "all"), and — when the search
string is non-empty — whose lowercased name or (non-empty) owner
contains the lowercased search string. -/
theorem getFilteredInitiatives_eq_filter (fs : Filters) (l : List Initiative) :
    getFilteredInitiatives fs l = l.filter (fullFilterPred fs) := by
  unfold getFilteredInitiatives
  rw [ite_filter_eq, ite_filter_eq, ite_filter_eq, filter_filter_and,
    filter_filter_and]
  refine List.filter_congr ?_
  intro i _
  simp only [fullFilterPred, bne, Bool.not_not, Bool.and_assoc, Bool.or_assoc]

end PortfolioTracker
